import Mathlib

/-!
Verification of the challenge-solving script in src/answers.ts.

The development shallowly embeds the script: promises become explicit
outcome values with settle times, the network becomes an environment
record answering each JSON-RPC call, and the cryptographic and
ABI-encoding library routines the script invokes are implemented
concretely (Keccak-256, hex, UTF-8, ABI call-data encoding) or kept
abstract where they are an external collaborator (the ECDSA signing
primitive of the wallet).
-/

namespace Answers

/-- Errors are carried as plain strings in the embedding. -/
abbrev Err := String

/-- Outcome of a settled promise: fulfilled with a value or rejected with an error. -/
inductive POutcome (α : Type) where
  | fulfilled (a : α)
  | rejected (e : Err)
deriving DecidableEq, Repr

/-- One network call as the environment answers it: a latency (abstract time
units) and a result. -/
structure Call (α : Type) where
  latency : Nat
  result : Except Err α
deriving Repr

/-- Environment for one invocation of submitTx: the answers the network gives
to the gas-price fetch, the gas estimation and the broadcast. -/
structure SubmitEnv where
  gasPrice : Call Nat
  estimate : Call Int
  send : Call String
deriving Repr

/-- The fixed contract address from answers.ts line 7. -/
def contractAddress : String := "0xc1e40f9FD2bc36150e2711e92138381982988791"

/-- The transaction-request object built inside submitTx (answers.ts lines 151-155). -/
structure Tx where
  «to» : String
  data : String
  gasPrice : Nat
deriving DecidableEq, Repr

/-- Everything one invocation of submitTx does, with settle times.

promiseTime and promise describe the promise the async function submitTx
itself returns; builtTx is the transaction-request object it constructed;
estimateCalled and sendCalled record whether the estimateGas and the
sendTransaction network calls were issued; chain is the settle time and
outcome of the detached estimateGas-then-sendTransaction promise chain
(none when it never started). -/
structure SubmitOut where
  promiseTime : Nat
  promise : POutcome Unit
  builtTx : Option Tx
  estimateCalled : Bool
  sendCalled : Bool
  chain : Option (Nat × POutcome Unit)
deriving DecidableEq, Repr

/-- The error message thrown by submitTx when the simulated gas is not
positive (answers.ts line 160). -/
def gasSimulationError : Err := "Unable to simulation gas for transaction."

/-- Embedding of submitTx (answers.ts lines 149-169), started at time start.

The body first awaits provider.getGasPrice() while building the tx object;
a rejection there rejects the promise of submitTx itself. It then starts
signer.estimateGas(tx).then(...) WITHOUT awaiting or returning it, so the
promise of submitTx fulfills as soon as the gas price is known, while the
estimation, the gas-limit guard and the broadcast continue as a detached
promise chain whose rejection is unhandled. -/
def submitTx (env : SubmitEnv) (data : String) (start : Nat) : SubmitOut :=
  let gpDone := start + env.gasPrice.latency
  match env.gasPrice.result with
  | .error e =>
      { promiseTime := gpDone, promise := .rejected e, builtTx := none
        estimateCalled := false, sendCalled := false, chain := none }
  | .ok gp =>
      let tx : Tx := { «to» := contractAddress, data := data, gasPrice := gp }
      let estDone := gpDone + env.estimate.latency
      let chainOut : Nat × POutcome Unit :=
        match env.estimate.result with
        | .error e => (estDone, .rejected e)
        | .ok gasLimit =>
            if gasLimit ≤ 0 then (estDone, .rejected gasSimulationError)
            else
              let sendDone := estDone + env.send.latency
              match env.send.result with
              | .error e => (sendDone, .rejected e)
              | .ok _ => (sendDone, .fulfilled ())
      let sendStarted : Bool :=
        match env.estimate.result with
        | .error _ => false
        | .ok gasLimit => decide (0 < gasLimit)
      { promiseTime := gpDone, promise := .fulfilled (), builtTx := some tx
        estimateCalled := true, sendCalled := sendStarted, chain := some chainOut }

/-- The terminal error report printed by the single catch handler in main
(answers.ts lines 181-189). -/
def errorReport (e : Err) : String :=
  "An error occurred while completing challenges. Details: " ++ e

/-- Everything one run of main does: for each challenge, the start time and
the submission it performed (none when the step never executed), and the
list of terminal error reports printed by the catch handler. -/
structure MainOut where
  run1 : Option (Nat × SubmitOut)
  run2 : Option (Nat × SubmitOut)
  run3a : Option (Nat × SubmitOut)
  run3b : Option (Nat × SubmitOut)
  reports : List String
deriving DecidableEq, Repr

/-- Embedding of main (answers.ts lines 171-190) given the four challenge
payload strings. The four challenge steps are chained with .then, so a step
starts exactly when the promise of the previous step fulfills; the single
.catch produces one terminal report for the first rejection and no later
step runs. Each challenge awaits submitTx, so its promise settles exactly
when the promise of its submitTx settles. Payload construction (answer
resolution, signing, encoding) is local wallet work with no network latency. -/
def mainChain (e1 e2 e3 e4 : SubmitEnv) (d1 d2 d3 d4 : String) : MainOut :=
  let s1 := 0
  let o1 := submitTx e1 d1 s1
  match o1.promise with
  | .rejected e =>
      { run1 := some (s1, o1), run2 := none, run3a := none, run3b := none
        reports := [errorReport e] }
  | .fulfilled _ =>
      let s2 := o1.promiseTime
      let o2 := submitTx e2 d2 s2
      match o2.promise with
      | .rejected e =>
          { run1 := some (s1, o1), run2 := some (s2, o2), run3a := none
            run3b := none, reports := [errorReport e] }
      | .fulfilled _ =>
          let s3 := o2.promiseTime
          let o3 := submitTx e3 d3 s3
          match o3.promise with
          | .rejected e =>
              { run1 := some (s1, o1), run2 := some (s2, o2)
                run3a := some (s3, o3), run3b := none
                reports := [errorReport e] }
          | .fulfilled _ =>
              let s4 := o3.promiseTime
              let o4 := submitTx e4 d4 s4
              match o4.promise with
              | .rejected e =>
                  { run1 := some (s1, o1), run2 := some (s2, o2)
                    run3a := some (s3, o3), run3b := some (s4, o4)
                    reports := [errorReport e] }
              | .fulfilled _ =>
                  { run1 := some (s1, o1), run2 := some (s2, o2)
                    run3a := some (s3, o3), run3b := some (s4, o4)
                    reports := [] }

/-! ## Byte-level primitives: Keccak-256, UTF-8, hex

These implement the library routines the script calls
(ethers.utils.keccak256, ethers.utils.toUtf8Bytes, ethers.utils.arrayify
and hex rendering). Keccak-256 is the original Keccak with the 0x01
domain padding, rate 136, as used by Ethereum. -/

/-- The 64-bit word bound; lanes are kept below this by explicit reduction. -/
def W : Nat := 2 ^ 64

/-- Left rotation of a 64-bit lane by n bits. -/
def rotl64 (x n : Nat) : Nat := ((x <<< n) ||| (x >>> (64 - n))) % W

/-- One step of the degree-8 LFSR (polynomial x^8 + x^6 + x^5 + x^4 + 1)
that generates the Keccak round-constant bits. -/
def lfsrStep (r : Nat) : Nat :=
  let r2 := r <<< 1
  if 256 ≤ r2 then (r2 ^^^ 0x71) % 256 else r2

/-- The LFSR state after t steps from the initial value 1. -/
def lfsrIter : Nat → Nat
  | 0 => 1
  | t + 1 => lfsrStep (lfsrIter t)

/-- Round constant of round i: bit rc(7i + j) of the LFSR placed at bit
position 2^j - 1 for j = 0..6, per the Keccak specification. -/
def roundConstant (i : Nat) : Nat :=
  (List.range 7).foldl (fun acc j => acc ^^^ ((lfsrIter (7 * i + j) % 2) <<< (2 ^ j - 1))) 0

/-- Keccak-f[1600] round constants for the 24 rounds. -/
def roundConstants : List Nat := (List.range 24).map roundConstant

/-- The rho rotation offsets along the pi orbit: starting from lane (1, 0),
step t carries offset the (t+1)-th triangular number mod 64, and the orbit
advances by (x, y) to (y, (2x + 3y) mod 5), per the Keccak specification. -/
def rhoPairsFrom (x y t fuel : Nat) : List (Nat × Nat) :=
  match fuel with
  | 0 => []
  | f + 1 =>
      (x + 5 * y, ((t + 1) * (t + 2) / 2) % 64)
        :: rhoPairsFrom y ((2 * x + 3 * y) % 5) (t + 1) f

/-- Keccak rho step rotation offsets indexed by lane x + 5 * y; lane 0
rotates by 0 and the other 24 lanes take their offsets from the orbit. -/
def rhoOffsets : List Nat :=
  let pairs := rhoPairsFrom 1 0 0 24
  (List.range 25).map fun i => (((pairs.find? fun p => p.1 = i).map Prod.snd).getD 0)

/-- Lane access in a 25-lane state list. -/
def lane (s : List Nat) (i : Nat) : Nat := s.getD i 0

/-- Keccak theta step. -/
def theta (s : List Nat) : List Nat :=
  let c : Nat → Nat := fun x =>
    lane s x ^^^ lane s (x + 5) ^^^ lane s (x + 10) ^^^ lane s (x + 15) ^^^ lane s (x + 20)
  let d : Nat → Nat := fun x => c ((x + 4) % 5) ^^^ rotl64 (c ((x + 1) % 5)) 1
  (List.range 25).map fun i => lane s i ^^^ d (i % 5)

/-- For each destination index of the pi permutation, the source index:
pi sends (x, y) to (y, (2x + 3y) mod 5), so destination (X, Y) receives
from x = (3Y + X) mod 5, y = X. -/
def piSource : List Nat := (List.range 25).map fun j =>
  let X := j % 5
  let Y := j / 5
  ((3 * Y + X) % 5) + 5 * X

/-- Keccak rho and pi steps combined. -/
def rhoPi (s : List Nat) : List Nat :=
  (List.range 25).map fun j =>
    let i := piSource.getD j 0
    rotl64 (lane s i) (rhoOffsets.getD i 0)

/-- Keccak chi step; 64-bit complement is xor with W - 1. -/
def chi (s : List Nat) : List Nat :=
  (List.range 25).map fun i =>
    let x := i % 5
    let y := i / 5
    lane s i ^^^ ((lane s ((x + 1) % 5 + 5 * y) ^^^ (W - 1)) &&& lane s ((x + 2) % 5 + 5 * y))

/-- Keccak iota step: xor the round constant into lane 0. -/
def iota (rc : Nat) (s : List Nat) : List Nat :=
  match s with
  | [] => []
  | a :: rest => (a ^^^ rc) :: rest

/-- One Keccak-f[1600] round. -/
def keccakRound (s : List Nat) (rc : Nat) : List Nat := iota rc (chi (rhoPi (theta s)))

/-- The full 24-round Keccak-f[1600] permutation. -/
def keccakF (s : List Nat) : List Nat := roundConstants.foldl keccakRound s

/-- Interpret up to eight bytes as a little-endian 64-bit lane. -/
def bytesToLane (bs : List Nat) : Nat := bs.foldr (fun b acc => b + 256 * acc) 0

/-- Xor one 136-byte rate block into the first 17 lanes of the state. -/
def absorbBlock (s block : List Nat) : List Nat :=
  let bl := (List.range 17).map fun i => bytesToLane ((block.drop (8 * i)).take 8)
  (List.range 25).map fun i => lane s i ^^^ (if i < 17 then bl.getD i 0 else 0)

/-- Absorb the given number of 136-byte blocks of msg. -/
def absorbAll (s msg : List Nat) : Nat → List Nat
  | 0 => s
  | n + 1 => absorbAll (keccakF (absorbBlock s (msg.take 136))) (msg.drop 136) n

/-- Original Keccak multi-rate padding with domain byte 0x01 at rate 136. -/
def keccakPad (len : Nat) : List Nat :=
  let r := 136 - len % 136
  if r = 1 then [0x81] else 0x01 :: (List.replicate (r - 2) 0 ++ [0x80])

/-- Keccak-256 of a byte list, as computed by ethers.utils.keccak256. -/
def keccak256 (msg : List Nat) : List Nat :=
  let padded := msg ++ keccakPad msg.length
  let s := absorbAll (List.replicate 25 0) padded (padded.length / 136)
  (List.range 32).map fun i => (lane s (i / 8) >>> (8 * (i % 8))) % 256

/-- UTF-8 encoding of one character from its code point. -/
def utf8EncodeChar (c : Char) : List Nat :=
  let n := c.toNat
  if n < 0x80 then [n]
  else if n < 0x800 then [0xC0 ||| (n >>> 6), 0x80 ||| (n &&& 0x3F)]
  else if n < 0x10000 then
    [0xE0 ||| (n >>> 12), 0x80 ||| ((n >>> 6) &&& 0x3F), 0x80 ||| (n &&& 0x3F)]
  else
    [0xF0 ||| (n >>> 18), 0x80 ||| ((n >>> 12) &&& 0x3F),
     0x80 ||| ((n >>> 6) &&& 0x3F), 0x80 ||| (n &&& 0x3F)]

/-- UTF-8 byte encoding of a string, as ethers.utils.toUtf8Bytes computes it. -/
def utf8Encode (s : String) : List Nat := (s.data.map utf8EncodeChar).flatten

/-- Lower-case hex digit for a value below 16. -/
def hexDigitChar (n : Nat) : Char :=
  if n < 10 then Char.ofNat (48 + n) else Char.ofNat (87 + n)

/-- The two hex characters of one byte. -/
def byteToHexChars (b : Nat) : List Char := [hexDigitChar (b / 16), hexDigitChar (b % 16)]

/-- Hex characters of a byte list. -/
def hexChars (bs : List Nat) : List Char := (bs.map byteToHexChars).flatten

/-- Render a byte list as a 0x-prefixed lower-case hex string, the form in
which ethers returns hashes and signatures. -/
def hexOfBytes (bs : List Nat) : String := String.mk ('0' :: 'x' :: hexChars bs)

/-- Value of one hex character. -/
def hexDigitVal (c : Char) : Nat :=
  if 97 ≤ c.toNat then c.toNat - 87
  else if 65 ≤ c.toNat then c.toNat - 55
  else c.toNat - 48

/-- Parse consecutive pairs of hex characters into bytes. -/
def hexPairsToBytes : List Char → List Nat
  | c1 :: c2 :: rest => (16 * hexDigitVal c1 + hexDigitVal c2) :: hexPairsToBytes rest
  | _ => []

/-- Embedding of ethers.utils.arrayify on a 0x-prefixed hex string: the byte
list the hex digits denote. -/
def arrayify (s : String) : List Nat := hexPairsToBytes (s.data.drop 2)

/-- Keccak-256 returning the 0x-prefixed hex string, matching the return
shape of ethers.utils.keccak256. -/
def keccak256hex (bs : List Nat) : String := hexOfBytes (keccak256 bs)

/-! ## Signatures

The wallet signing primitive (deterministic ECDSA over secp256k1, RFC
6979, as the ethers Wallet implements it) is an external collaborator of
the script; it is kept abstract as a function from a 32-byte digest to a
signature record. Everything around it - the EIP-191 signed-message
preamble of signMessage, the joined 65-byte hex serialization, the EIP-2098
compact form used by challenge 3b - is embedded concretely. -/

/-- An ECDSA signature split into its components, as ethers represents it:
two 32-byte words r and s and the recovery value v (27 or 28). -/
structure Sig where
  r : List Nat
  s : List Nat
  v : Nat
deriving DecidableEq, Repr

/-- Well-formedness of a signature record: 32-byte r and s with byte-sized
entries and a recovery value of 27 or 28. -/
def wfSig (sig : Sig) : Prop :=
  sig.r.length = 32 ∧ sig.s.length = 32 ∧
  (∀ b ∈ sig.r, b < 256) ∧ (∀ b ∈ sig.s, b < 256) ∧ (sig.v = 27 ∨ sig.v = 28)

/-- The EIP-191 personal-message preamble ethers prepends in signMessage:
the fixed text followed by the decimal byte length of the message. -/
def eip191Bytes (message : List Nat) : List Nat :=
  utf8Encode "\x19Ethereum Signed Message:\n" ++ utf8Encode (toString message.length) ++ message

/-- The digest ethers signMessage actually signs: keccak256 of the
preamble-wrapped message bytes. -/
def hashMessage (message : List Nat) : List Nat := keccak256 (eip191Bytes message)

/-- Serialization of a signature as the 65-byte r, s, v hex string that
ethers signMessage resolves to. -/
def joinSignature (sig : Sig) : String := hexOfBytes (sig.r ++ sig.s ++ [sig.v])

/-- Embedding of ethers Wallet signMessage on a byte-list message, with the
ECDSA primitive sign passed in as the abstract deterministic signer. -/
def signMessage (sign : List Nat → Sig) (message : List Nat) : String :=
  joinSignature (sign (hashMessage message))

/-- Embedding of generateSignature (answers.ts lines 133-142): keccak256 of
the UTF-8 bytes of value, rendered as hex by the library, arrayified back
to the 32 raw digest bytes, and passed to signMessage. -/
def generateSignature (sign : List Nat → Sig) (value : String) : String :=
  let hashed := keccak256hex (utf8Encode value)
  signMessage sign (arrayify hashed)

/-- Parsing a 65-byte signature byte list into its components, as
ethers.utils.splitSignature does. -/
def splitSignatureOf (bytes : List Nat) : Sig :=
  { r := bytes.take 32, s := (bytes.drop 32).take 32, v := bytes.getD 64 0 }

/-- The EIP-2098 compact 64-byte form of a signature: r followed by s with
the recovery parity packed into the top bit of the first byte of s, as the
compact field of ethers.utils.splitSignature. -/
def compactOf (sig : Sig) : List Nat :=
  match sig.s with
  | [] => sig.r
  | s0 :: srest => sig.r ++ ((if sig.v = 28 then s0 ||| 0x80 else s0) :: srest)

/-! ## ABI call-data encoding

Modelled from the spec: the repository imports its contract interface from
Bounty.json, which is not under src/, and delegates the encoding to the
ethers Interface. Following the spec (section 4.2), a call is encoded as
the 4-byte selector - the first four bytes of keccak256 of the canonical
name-and-parameter-type signature - followed by the standard head/tail
encoding of the arguments (string and bytes dynamic with an offset head
word, address static left-padded to 32 bytes). -/

/-- An argument value for a call to the bounty contract. -/
inductive ABIValue where
  | string (s : String)
  | address (a : String)
  | bytes (bs : List Nat)
deriving DecidableEq, Repr

/-- Canonical ABI type name of an argument. -/
def abiTypeName : ABIValue → String
  | .string _ => "string"
  | .address _ => "address"
  | .bytes _ => "bytes"

/-- Canonical function signature, e.g. solveChallenge1(string). -/
def canonicalSignature (name : String) (args : List ABIValue) : String :=
  name ++ "(" ++ String.intercalate "," (args.map abiTypeName) ++ ")"

/-- The 4-byte function selector of a canonical signature. -/
def selectorBytes (name : String) (args : List ABIValue) : List Nat :=
  (keccak256 (utf8Encode (canonicalSignature name args))).take 4

/-- Big-endian 32-byte encoding of a number. -/
def natTo32 (n : Nat) : List Nat :=
  (List.range 32).map fun i => (n >>> (8 * (31 - i))) % 256

/-- Right-pad a byte list with zeros to a multiple of 32 bytes. -/
def padRight32 (bs : List Nat) : List Nat :=
  bs ++ List.replicate ((32 - bs.length % 32) % 32) 0

/-- Tail (dynamic) encoding of an argument: length word then padded bytes
for string and bytes, nothing for a static address. -/
def tailEnc : ABIValue → List Nat
  | .string s => natTo32 (utf8Encode s).length ++ padRight32 (utf8Encode s)
  | .bytes bs => natTo32 bs.length ++ padRight32 bs
  | .address _ => []

/-- Head words and concatenated tails of an argument list: a static address
contributes its left-padded 20 bytes in the head, a dynamic argument
contributes the byte offset of its tail counted from the start of the
argument encoding. -/
def encodeArgsAux (headsLen : Nat) : List ABIValue → Nat → List Nat × List Nat
  | [], _ => ([], [])
  | a :: rest, tailLen =>
      match a with
      | .address s =>
          let p := encodeArgsAux headsLen rest tailLen
          (List.replicate 12 0 ++ arrayify s ++ p.1, p.2)
      | _ =>
          let tb := tailEnc a
          let p := encodeArgsAux headsLen rest (tailLen + tb.length)
          (natTo32 (headsLen + tailLen) ++ p.1, tb ++ p.2)

/-- The argument encoding: heads then tails. -/
def encodeArguments (args : List ABIValue) : List Nat :=
  let p := encodeArgsAux (32 * args.length) args 0
  p.1 ++ p.2

/-- Call-data bytes of a function call: selector then argument encoding. -/
def encodeFunctionData (name : String) (args : List ABIValue) : List Nat :=
  selectorBytes name args ++ encodeArguments args

/-- Embedding of generateFunctionData (answers.ts lines 144-147): the hex
call-data string for a function of the bounty contract. -/
def generateFunctionData (name : String) (args : List ABIValue) : String :=
  hexOfBytes (encodeFunctionData name args)

/-! ## The four challenge calls and main -/

/-- A named contract call with its ordered arguments. -/
structure FnCall where
  name : String
  args : List ABIValue
deriving DecidableEq, Repr

/-- The call built by challenge1 (answers.ts lines 11-28). -/
def challenge1Call : FnCall :=
  { name := "solveChallenge1", args := [.string "faucet"] }

/-- The call built by challenge2 (answers.ts lines 30-62). -/
def challenge2Call (sign : List Nat → Sig) : FnCall :=
  { name := "solveChallenge2"
    args := [.string "The Merge", .bytes (arrayify (generateSignature sign "The Merge"))] }

/-- The call built by challenge3a (answers.ts lines 64-96): answer, signer
address, extended 65-byte signature. -/
def challenge3aCall (sign : List Nat → Sig) (address : String) : FnCall :=
  { name := "solveChallenge3"
    args := [.string "EIP-4844", .address address,
             .bytes (arrayify (generateSignature sign "EIP-4844"))] }

/-- The call built by challenge3b (answers.ts lines 98-131): same answer
and address, but the EIP-2098 compact form of the signature. -/
def challenge3bCall (sign : List Nat → Sig) (address : String) : FnCall :=
  let signature := generateSignature sign "EIP-4844"
  let compact := hexOfBytes (compactOf (splitSignatureOf (arrayify signature)))
  { name := "solveChallenge3"
    args := [.string "EIP-4844", .address address, .bytes (arrayify compact)] }

/-- Call-data hex string of a challenge call. -/
def callData (c : FnCall) : String := generateFunctionData c.name c.args

/-- Embedding of main (answers.ts lines 171-190): the four challenges with
their actual payloads, chained as in mainChain, given the abstract wallet
signer, its address and the network environments of the four submissions. -/
def main (sign : List Nat → Sig) (address : String) (e1 e2 e3 e4 : SubmitEnv) : MainOut :=
  mainChain e1 e2 e3 e4
    (callData challenge1Call)
    (callData (challenge2Call sign))
    (callData (challenge3aCall sign address))
    (callData (challenge3bCall sign address))

/-! ## Helper lemmas -/

theorem keccak256_length (msg : List Nat) : (keccak256 msg).length = 32 := by
  simp [keccak256]

theorem keccak256_lt (msg : List Nat) : ∀ b ∈ keccak256 msg, b < 256 := by
  intro b hb
  simp only [keccak256, List.mem_map, List.mem_range] at hb
  obtain ⟨i, _, rfl⟩ := hb
  exact Nat.mod_lt _ (by norm_num)

theorem hexDigitVal_hexDigitChar : ∀ n < 16, hexDigitVal (hexDigitChar n) = n := by decide

theorem hexDigitChar_ascii : ∀ n < 16, (hexDigitChar n).toNat < 128 := by decide

theorem hexPairsToBytes_hexChars (bs : List Nat) (h : ∀ b ∈ bs, b < 256) :
    hexPairsToBytes (hexChars bs) = bs := by
  induction bs with
  | nil => rfl
  | cons b rest ih =>
      have hb : b < 256 := h b (List.mem_cons_self b rest)
      have h1 : b / 16 < 16 := Nat.div_lt_of_lt_mul (by omega)
      have h2 : b % 16 < 16 := Nat.mod_lt _ (by norm_num)
      have hrec := ih fun x hx => h x (List.mem_cons_of_mem _ hx)
      show (16 * hexDigitVal (hexDigitChar (b / 16)) + hexDigitVal (hexDigitChar (b % 16)))
          :: hexPairsToBytes (hexChars rest) = b :: rest
      rw [hexDigitVal_hexDigitChar _ h1, hexDigitVal_hexDigitChar _ h2, hrec]
      congr 1
      omega

theorem arrayify_hexOfBytes (bs : List Nat) (h : ∀ b ∈ bs, b < 256) :
    arrayify (hexOfBytes bs) = bs :=
  hexPairsToBytes_hexChars bs h

theorem arrayify_keccak256hex (u : List Nat) : arrayify (keccak256hex u) = keccak256 u :=
  arrayify_hexOfBytes _ (keccak256_lt u)

theorem utf8EncodeChar_ascii (c : Char) (h : c.toNat < 128) : utf8EncodeChar c = [c.toNat] := by
  unfold utf8EncodeChar
  rw [if_pos h]

theorem utf8_flatten_ascii (l : List Char) (h : ∀ c ∈ l, c.toNat < 128) :
    (l.map utf8EncodeChar).flatten = l.map Char.toNat := by
  induction l with
  | nil => rfl
  | cons c rest ih =>
      have hc := utf8EncodeChar_ascii c (h c (List.mem_cons_self c rest))
      have hrec := ih fun x hx => h x (List.mem_cons_of_mem _ hx)
      simp [hc, hrec]

theorem hexChars_length (bs : List Nat) : (hexChars bs).length = 2 * bs.length := by
  induction bs with
  | nil => rfl
  | cons b rest ih =>
      show (byteToHexChars b ++ hexChars rest).length = 2 * (rest.length + 1)
      rw [List.length_append, ih]
      simp [byteToHexChars]
      omega

theorem hexChars_ascii (bs : List Nat) (h : ∀ b ∈ bs, b < 256) :
    ∀ c ∈ hexChars bs, c.toNat < 128 := by
  induction bs with
  | nil => intro c hc; simp [hexChars] at hc
  | cons b rest ih =>
      intro c hc
      have hb : b < 256 := h b (List.mem_cons_self b rest)
      have h1 : b / 16 < 16 := Nat.div_lt_of_lt_mul (by omega)
      have h2 : b % 16 < 16 := Nat.mod_lt _ (by norm_num)
      have : hexChars (b :: rest)
          = hexDigitChar (b / 16) :: hexDigitChar (b % 16) :: hexChars rest := rfl
      rw [this] at hc
      simp only [List.mem_cons] at hc
      rcases hc with rfl | rfl | hc
      · exact hexDigitChar_ascii _ h1
      · exact hexDigitChar_ascii _ h2
      · exact ih (fun x hx => h x (List.mem_cons_of_mem _ hx)) c hc

theorem utf8Encode_hexOfBytes_length (bs : List Nat) (h : ∀ b ∈ bs, b < 256) :
    (utf8Encode (hexOfBytes bs)).length = 2 + 2 * bs.length := by
  have hascii : ∀ c ∈ ('0' :: 'x' :: hexChars bs), c.toNat < 128 := by
    intro c hc
    simp only [List.mem_cons] at hc
    rcases hc with rfl | rfl | hc
    · decide
    · decide
    · exact hexChars_ascii bs h c hc
  show ((('0' :: 'x' :: hexChars bs).map utf8EncodeChar).flatten).length = 2 + 2 * bs.length
  rw [utf8_flatten_ascii _ hascii, List.length_map]
  simp [hexChars_length]
  omega

theorem utf8_keccak256hex_length (u : List Nat) :
    (utf8Encode (keccak256hex u)).length = 66 := by
  unfold keccak256hex
  rw [utf8Encode_hexOfBytes_length _ (keccak256_lt u), keccak256_length]

theorem utf8_eip191_preamble :
    utf8Encode "\x19Ethereum Signed Message:\n" ++ utf8Encode "32"
      = utf8Encode "\x19Ethereum Signed Message:\n32" := by decide

/-- On a 32-byte digest, the signed-message preamble wraps it with the
fixed text ending in the decimal length 32. -/
theorem hashMessage_digest (u : List Nat) :
    hashMessage (keccak256 u)
      = keccak256 (utf8Encode "\x19Ethereum Signed Message:\n32" ++ keccak256 u) := by
  unfold hashMessage eip191Bytes
  rw [keccak256_length]
  rw [show toString (32 : Nat) = "32" from rfl, ← utf8_eip191_preamble, List.append_assoc]

/-- The digest the wallet primitive is asked to sign inside
generateSignature for a given answer string. -/
def answerDigest (value : String) : List Nat :=
  hashMessage (arrayify (keccak256hex (utf8Encode value)))

theorem answerDigest_eq (value : String) :
    answerDigest value
      = keccak256 (utf8Encode "\x19Ethereum Signed Message:\n32"
          ++ keccak256 (utf8Encode value)) := by
  unfold answerDigest
  rw [arrayify_keccak256hex, hashMessage_digest]

theorem generateSignature_eq (sign : List Nat → Sig) (value : String) :
    generateSignature sign value = joinSignature (sign (answerDigest value)) := rfl

theorem arrayify_joinSignature (sig : Sig) (h : wfSig sig) :
    arrayify (joinSignature sig) = sig.r ++ sig.s ++ [sig.v] := by
  obtain ⟨_, _, hr, hs, hv⟩ := h
  apply arrayify_hexOfBytes
  intro b hb
  simp only [List.append_assoc, List.mem_append, List.mem_singleton] at hb
  rcases hb with hb | hb | rfl
  · exact hr b hb
  · exact hs b hb
  · rcases hv with hv | hv <;> rw [hv] <;> norm_num

theorem splitSignatureOf_join (sig : Sig) (h : wfSig sig) :
    splitSignatureOf (sig.r ++ sig.s ++ [sig.v]) = sig := by
  obtain ⟨hr, hs, _, _, _⟩ := h
  unfold splitSignatureOf
  have hrv : sig.r ++ sig.s ++ [sig.v] = sig.r ++ (sig.s ++ [sig.v]) := by
    rw [List.append_assoc]
  cases sig with
  | mk r s v =>
      simp only at hr hs hrv
      congr 1
      · rw [hrv, List.take_left' hr]
      · rw [hrv, List.drop_left' hr, List.take_left' hs]
      · rw [hrv]
        unfold List.getD
        rw [List.get?_append_right (by omega)]
        rw [List.get?_append_right (by omega)]
        simp [hr, hs]

theorem extended_length (sig : Sig) (h : wfSig sig) :
    (sig.r ++ sig.s ++ [sig.v]).length = 65 := by
  obtain ⟨hr, hs, _, _, _⟩ := h
  simp [hr, hs]

theorem compactOf_length (sig : Sig) (h : wfSig sig) : (compactOf sig).length = 64 := by
  obtain ⟨hr, hs, _, _, _⟩ := h
  unfold compactOf
  cases hsig : sig.s with
  | nil => rw [hsig] at hs; simp at hs
  | cons s0 srest =>
      rw [hsig] at hs
      simp only [List.length_cons] at hs
      simp [hr]
      omega

theorem compactOf_lt (sig : Sig) (h : wfSig sig) : ∀ b ∈ compactOf sig, b < 256 := by
  obtain ⟨_, _, hr, hs, _⟩ := h
  intro b hb
  unfold compactOf at hb
  cases hsig : sig.s with
  | nil => rw [hsig] at hb; exact hr b hb
  | cons s0 srest =>
      rw [hsig] at hb
      have hs0 : s0 < 256 := hs s0 (by rw [hsig]; exact List.mem_cons_self _ _)
      simp only [List.mem_append, List.mem_cons] at hb
      rcases hb with hb | rfl | hb
      · exact hr b hb
      · by_cases hv : sig.v = 28
        · rw [if_pos hv]
          have := Nat.or_lt_two_pow (n := 8) hs0 (show 0x80 < 2 ^ 8 by norm_num)
          simpa using this
        · rw [if_neg hv]; exact hs0
      · exact hs b (by rw [hsig]; exact List.mem_cons_of_mem _ hb)

/-- The compact form keeps the 32-byte r and has total length 64, one byte
shorter than the 65-byte extended form, so the two byte sequences differ. -/
theorem compact_ne_extended (sig : Sig) (h : wfSig sig) :
    compactOf sig ≠ sig.r ++ sig.s ++ [sig.v] := by
  intro he
  have h64 := compactOf_length sig h
  have h65 := extended_length sig h
  rw [he, h65] at h64
  exact absurd h64 (by norm_num)

/-! ## Concrete inputs used by witnesses and failing-input theorems -/

/-- A network environment where every call succeeds after one time unit. -/
def unitEnv : SubmitEnv :=
  { gasPrice := ⟨1, .ok 5⟩, estimate := ⟨1, .ok 100⟩, send := ⟨1, .ok "response"⟩ }

/-- A network environment where the gas-price fetch succeeds and the gas
estimation rejects with a transport error. -/
def estFailEnv : SubmitEnv :=
  { gasPrice := ⟨1, .ok 5⟩, estimate := ⟨0, .error "ECONNRESET"⟩, send := ⟨0, .ok "response"⟩ }

/-- A network environment where the gas-price fetch itself rejects. -/
def gasPriceFailEnv : SubmitEnv :=
  { gasPrice := ⟨0, .error "connection refused"⟩, estimate := ⟨0, .ok 100⟩
    send := ⟨0, .ok "response"⟩ }

/-- A network environment whose gas estimation returns zero. -/
def zeroGasEnv : SubmitEnv :=
  { gasPrice := ⟨0, .ok 1⟩, estimate := ⟨0, .ok 0⟩, send := ⟨0, .ok "response"⟩ }

/-- A succeeding environment with a chosen gas price. -/
def okEnv (gp : Nat) : SubmitEnv :=
  { gasPrice := ⟨0, .ok gp⟩, estimate := ⟨0, .ok 100⟩, send := ⟨0, .ok "response"⟩ }

/-- A fixed well-formed signature record. -/
def constSig : Sig := { r := List.replicate 32 1, s := List.replicate 32 2, v := 27 }

/-- A signing primitive returning the fixed signature for every digest. -/
def constSigner : List Nat → Sig := fun _ => constSig

/-- A fixed signer address. -/
def addr0 : String := "0x00000000000000000000000000000000000000aa"

/-! ## Claim theorems -/

/-- C1. The claim says a later challenge begins only after the earlier
submission completes including its gas estimation and broadcast round
trips. On the code this fails: with every network call taking one time
unit and succeeding, challenge 1 starts at time 0 and its detached
estimateGas-then-sendTransaction chain only settles at time 3, yet
challenge 2 already starts at time 1, as soon as the gas-price fetch of
challenge 1 resolves, because submitTx starts the chain without awaiting
it (answers.ts line 158). -/
theorem challengeTwoStartsBeforeChallengeOneBroadcastCompletes
    (sign : List Nat → Sig) (address : String) :
    ((main sign address unitEnv unitEnv unitEnv unitEnv).run1.map fun p => (p.1, p.2.chain))
        = some (0, some (3, .fulfilled ())) ∧
    ((main sign address unitEnv unitEnv unitEnv unitEnv).run2.map fun p => p.1) = some 1 ∧
    (1 : Nat) < 3 := by
  refine ⟨rfl, rfl, by norm_num⟩

/-- The network environment of the challenge step with the given index
(0 for challenge 1, 1 for challenge 2, 2 for 3a, 3 for 3b). -/
def envAt (e1 e2 e3 e4 : SubmitEnv) : Fin 4 → SubmitEnv
  | ⟨0, _⟩ => e1
  | ⟨1, _⟩ => e2
  | ⟨2, _⟩ => e3
  | ⟨3, _⟩ => e4

/-- The recorded run of the challenge step with the given index. -/
def runAt (out : MainOut) : Fin 4 → Option (Nat × SubmitOut)
  | ⟨0, _⟩ => out.run1
  | ⟨1, _⟩ => out.run2
  | ⟨2, _⟩ => out.run3a
  | ⟨3, _⟩ => out.run3b

/-- C2. Whichever challenge step is the first whose promise rejects - the
steps before index k succeeding and the gas-price fetch of step k failing
with error e - the steps up to and including k execute, every later step
never executes, and the single catch handler of main produces exactly one
terminal error report carrying that failure detail. The step-2 instance of
the claim is the case k = 1, where steps 3a and 3b do not run. -/
theorem mainHaltsAfterAnyStepFailure
    (sign : List Nat → Sig) (address : String) (e1 e2 e3 e4 : SubmitEnv)
    (k : Fin 4) (gps : Fin 4 → Nat) (e : Err)
    (hok : ∀ j, j < k → (envAt e1 e2 e3 e4 j).gasPrice.result = .ok (gps j))
    (herr : (envAt e1 e2 e3 e4 k).gasPrice.result = .error e) :
    (∀ j, j ≤ k → (runAt (main sign address e1 e2 e3 e4) j).isSome = true) ∧
    (∀ j, k < j → runAt (main sign address e1 e2 e3 e4) j = none) ∧
    (main sign address e1 e2 e3 e4).reports = [errorReport e] := by
  fin_cases k
  · have he : e1.gasPrice.result = .error e := herr
    refine ⟨?_, ?_, ?_⟩
    · intro j hj
      fin_cases j
      · simp [runAt, main, mainChain, submitTx, he]
      · exact absurd hj (by decide)
      · exact absurd hj (by decide)
      · exact absurd hj (by decide)
    · intro j hj
      fin_cases j
      · exact absurd hj (by decide)
      · simp [runAt, main, mainChain, submitTx, he]
      · simp [runAt, main, mainChain, submitTx, he]
      · simp [runAt, main, mainChain, submitTx, he]
    · simp [main, mainChain, submitTx, he]
  · have h0 : e1.gasPrice.result = .ok (gps 0) := hok 0 (by decide)
    have he : e2.gasPrice.result = .error e := herr
    refine ⟨?_, ?_, ?_⟩
    · intro j hj
      fin_cases j
      · simp [runAt, main, mainChain, submitTx, h0, he]
      · simp [runAt, main, mainChain, submitTx, h0, he]
      · exact absurd hj (by decide)
      · exact absurd hj (by decide)
    · intro j hj
      fin_cases j
      · exact absurd hj (by decide)
      · exact absurd hj (by decide)
      · simp [runAt, main, mainChain, submitTx, h0, he]
      · simp [runAt, main, mainChain, submitTx, h0, he]
    · simp [main, mainChain, submitTx, h0, he]
  · have h0 : e1.gasPrice.result = .ok (gps 0) := hok 0 (by decide)
    have h1 : e2.gasPrice.result = .ok (gps 1) := hok 1 (by decide)
    have he : e3.gasPrice.result = .error e := herr
    refine ⟨?_, ?_, ?_⟩
    · intro j hj
      fin_cases j
      · simp [runAt, main, mainChain, submitTx, h0, h1, he]
      · simp [runAt, main, mainChain, submitTx, h0, h1, he]
      · simp [runAt, main, mainChain, submitTx, h0, h1, he]
      · exact absurd hj (by decide)
    · intro j hj
      fin_cases j
      · exact absurd hj (by decide)
      · exact absurd hj (by decide)
      · exact absurd hj (by decide)
      · simp [runAt, main, mainChain, submitTx, h0, h1, he]
    · simp [main, mainChain, submitTx, h0, h1, he]
  · have h0 : e1.gasPrice.result = .ok (gps 0) := hok 0 (by decide)
    have h1 : e2.gasPrice.result = .ok (gps 1) := hok 1 (by decide)
    have h2 : e3.gasPrice.result = .ok (gps 2) := hok 2 (by decide)
    have he : e4.gasPrice.result = .error e := herr
    refine ⟨?_, ?_, ?_⟩
    · intro j hj
      fin_cases j
      · simp [runAt, main, mainChain, submitTx, h0, h1, h2, he]
      · simp [runAt, main, mainChain, submitTx, h0, h1, h2, he]
      · simp [runAt, main, mainChain, submitTx, h0, h1, h2, he]
      · simp [runAt, main, mainChain, submitTx, h0, h1, h2, he]
    · intro j hj
      fin_cases j <;> exact absurd hj (by decide)
    · simp [main, mainChain, submitTx, h0, h1, h2, he]

theorem mainHaltsAfterAnyStepFailure_witness :
    (unitEnv.gasPrice.result = Except.ok 5) ∧
    (gasPriceFailEnv.gasPrice.result = Except.error "connection refused") ∧
    ((runAt (main constSigner addr0 unitEnv gasPriceFailEnv unitEnv unitEnv) 0).isSome
        = true ∧
     (runAt (main constSigner addr0 unitEnv gasPriceFailEnv unitEnv unitEnv) 1).isSome
        = true ∧
     runAt (main constSigner addr0 unitEnv gasPriceFailEnv unitEnv unitEnv) 2 = none ∧
     runAt (main constSigner addr0 unitEnv gasPriceFailEnv unitEnv unitEnv) 3 = none ∧
     (main constSigner addr0 unitEnv gasPriceFailEnv unitEnv unitEnv).reports
        = [errorReport "connection refused"]) :=
  have H := mainHaltsAfterAnyStepFailure constSigner addr0
    unitEnv gasPriceFailEnv unitEnv unitEnv 1 (fun _ => 5) "connection refused"
    (by
      intro j hj
      fin_cases j
      · rfl
      · exact absurd hj (by decide)
      · exact absurd hj (by decide)
      · exact absurd hj (by decide))
    rfl
  ⟨rfl, rfl, H.1 0 (by decide), H.1 1 (by decide),
   H.2.1 2 (by decide), H.2.1 3 (by decide), H.2.2⟩

/-- C3. The claim says a network error at the gas-estimation or broadcast
step propagates unmodified to the caller of submitTx. On the code this
fails: with the gas estimation rejecting, the promise submitTx returns to
the orchestrator still fulfills, and the error is left as the unhandled
rejection of the detached chain - it never reaches the caller at all,
because the estimateGas chain is not awaited (answers.ts line 158). -/
theorem estimateErrorStaysInDetachedChain (data : String) (start : Nat) :
    (submitTx estFailEnv data start).promise = .fulfilled () ∧
    (submitTx estFailEnv data start).chain = some (start + 1, .rejected "ECONNRESET") ∧
    (submitTx estFailEnv data start).sendCalled = false := by
  exact ⟨rfl, rfl, rfl⟩

/-- C4. When the gas-price fetch succeeded and the simulated gas is not
positive, the submission raises the would-revert error and the broadcast
call sendTransaction is never issued for that transaction. -/
theorem nonPositiveGasBlocksBroadcast
    (env : SubmitEnv) (data : String) (start gp : Nat) (g : Int)
    (h1 : env.gasPrice.result = .ok gp) (h2 : env.estimate.result = .ok g)
    (h3 : g ≤ 0) :
    (submitTx env data start).sendCalled = false ∧
    (submitTx env data start).chain
      = some (start + env.gasPrice.latency + env.estimate.latency,
              .rejected gasSimulationError) := by
  constructor
  · simp [submitTx, h1, h2]
    omega
  · simp [submitTx, h1, h2, h3]

theorem nonPositiveGasBlocksBroadcast_witness :
    (zeroGasEnv.gasPrice.result = Except.ok 1) ∧
    (zeroGasEnv.estimate.result = Except.ok 0) ∧
    ((0 : Int) ≤ 0) ∧
    ((submitTx zeroGasEnv "0xdata" 0).sendCalled = false ∧
     (submitTx zeroGasEnv "0xdata" 0).chain
       = some (0 + zeroGasEnv.gasPrice.latency + zeroGasEnv.estimate.latency,
               .rejected gasSimulationError)) :=
  ⟨rfl, rfl, by norm_num,
   nonPositiveGasBlocksBroadcast zeroGasEnv "0xdata" 0 1 0 rfl rfl (by norm_num)⟩

/-- C9. Every transaction request built across the four submissions of main
carries the fixed contract address as destination, the payload of its own
challenge as data, and the gas price its own submission fetched - each
submission uses the value of its own fresh getGasPrice call, with no
caching across calls. -/
theorem transactionRequestsUseFreshGasPrice
    (sign : List Nat → Sig) (address : String) (e1 e2 e3 e4 : SubmitEnv)
    (gp1 gp2 gp3 gp4 : Nat)
    (h1 : e1.gasPrice.result = .ok gp1) (h2 : e2.gasPrice.result = .ok gp2)
    (h3 : e3.gasPrice.result = .ok gp3) (h4 : e4.gasPrice.result = .ok gp4) :
    ((main sign address e1 e2 e3 e4).run1.map fun p => p.2.builtTx)
      = some (some { «to» := contractAddress, data := callData challenge1Call
                     gasPrice := gp1 }) ∧
    ((main sign address e1 e2 e3 e4).run2.map fun p => p.2.builtTx)
      = some (some { «to» := contractAddress, data := callData (challenge2Call sign)
                     gasPrice := gp2 }) ∧
    ((main sign address e1 e2 e3 e4).run3a.map fun p => p.2.builtTx)
      = some (some { «to» := contractAddress, data := callData (challenge3aCall sign address)
                     gasPrice := gp3 }) ∧
    ((main sign address e1 e2 e3 e4).run3b.map fun p => p.2.builtTx)
      = some (some { «to» := contractAddress, data := callData (challenge3bCall sign address)
                     gasPrice := gp4 }) := by
  unfold main mainChain
  simp [submitTx, h1, h2, h3, h4]

theorem transactionRequestsUseFreshGasPrice_witness :
    ((okEnv 11).gasPrice.result = Except.ok 11) ∧
    ((okEnv 22).gasPrice.result = Except.ok 22) ∧
    ((okEnv 33).gasPrice.result = Except.ok 33) ∧
    ((okEnv 44).gasPrice.result = Except.ok 44) ∧
    (((main constSigner addr0 (okEnv 11) (okEnv 22) (okEnv 33) (okEnv 44)).run1.map
          fun p => p.2.builtTx)
        = some (some { «to» := contractAddress, data := callData challenge1Call
                       gasPrice := 11 }) ∧
     ((main constSigner addr0 (okEnv 11) (okEnv 22) (okEnv 33) (okEnv 44)).run2.map
          fun p => p.2.builtTx)
        = some (some { «to» := contractAddress, data := callData (challenge2Call constSigner)
                       gasPrice := 22 }) ∧
     ((main constSigner addr0 (okEnv 11) (okEnv 22) (okEnv 33) (okEnv 44)).run3a.map
          fun p => p.2.builtTx)
        = some (some { «to» := contractAddress
                       data := callData (challenge3aCall constSigner addr0)
                       gasPrice := 33 }) ∧
     ((main constSigner addr0 (okEnv 11) (okEnv 22) (okEnv 33) (okEnv 44)).run3b.map
          fun p => p.2.builtTx)
        = some (some { «to» := contractAddress
                       data := callData (challenge3bCall constSigner addr0)
                       gasPrice := 44 })) :=
  ⟨rfl, rfl, rfl, rfl,
   transactionRequestsUseFreshGasPrice constSigner addr0
     (okEnv 11) (okEnv 22) (okEnv 33) (okEnv 44) 11 22 33 44 rfl rfl rfl rfl⟩

/-- C10. Provided its gas-price fetch succeeds, the promise submitTx
returns always fulfills, whatever the estimation and broadcast calls do:
the estimateGas chain is started but not awaited, so its rejection never
rejects the promise of submitTx, and a main run whose four gas-price
fetches succeed executes all four challenges and reports no error, even
when every estimation or broadcast fails. -/
theorem submitTxAlwaysFulfillsAfterGasPrice
    (sign : List Nat → Sig) (address : String) (data : String) (start : Nat)
    (e1 e2 e3 e4 : SubmitEnv) (gp1 gp2 gp3 gp4 : Nat)
    (h1 : e1.gasPrice.result = .ok gp1) (h2 : e2.gasPrice.result = .ok gp2)
    (h3 : e3.gasPrice.result = .ok gp3) (h4 : e4.gasPrice.result = .ok gp4) :
    (submitTx e1 data start).promise = .fulfilled () ∧
    (submitTx e1 data start).estimateCalled = true ∧
    (main sign address e1 e2 e3 e4).run1.isSome = true ∧
    (main sign address e1 e2 e3 e4).run2.isSome = true ∧
    (main sign address e1 e2 e3 e4).run3a.isSome = true ∧
    (main sign address e1 e2 e3 e4).run3b.isSome = true ∧
    (main sign address e1 e2 e3 e4).reports = [] := by
  unfold main mainChain
  simp [submitTx, h1, h2, h3, h4]

theorem submitTxAlwaysFulfillsAfterGasPrice_witness :
    (estFailEnv.gasPrice.result = Except.ok 5) ∧
    ((submitTx estFailEnv "0xdata" 0).promise = .fulfilled () ∧
     (submitTx estFailEnv "0xdata" 0).estimateCalled = true ∧
     (main constSigner addr0 estFailEnv estFailEnv estFailEnv estFailEnv).run1.isSome = true ∧
     (main constSigner addr0 estFailEnv estFailEnv estFailEnv estFailEnv).run2.isSome = true ∧
     (main constSigner addr0 estFailEnv estFailEnv estFailEnv estFailEnv).run3a.isSome = true ∧
     (main constSigner addr0 estFailEnv estFailEnv estFailEnv estFailEnv).run3b.isSome = true ∧
     (main constSigner addr0 estFailEnv estFailEnv estFailEnv estFailEnv).reports = []) :=
  ⟨rfl, submitTxAlwaysFulfillsAfterGasPrice constSigner addr0 "0xdata" 0
     estFailEnv estFailEnv estFailEnv estFailEnv 5 5 5 5 rfl rfl rfl rfl⟩

/-- C5. generateSignature hashes the UTF-8 bytes of the answer with
keccak256 and signs that digest under the fixed Ethereum signed-message
preamble: the signed digest is keccak256 of the preamble (ending in the
byte length 32) followed by the 32 raw digest bytes. The digest enters
signMessage as its 32 raw bytes (arrayify of the hex string), not as the
66 UTF-8 bytes of the hex string literal the library returned. -/
theorem generateSignatureHashesUtf8UnderPreamble (sign : List Nat → Sig) (value : String) :
    generateSignature sign value
      = joinSignature (sign (keccak256
          (utf8Encode "\x19Ethereum Signed Message:\n32" ++ keccak256 (utf8Encode value)))) ∧
    (arrayify (keccak256hex (utf8Encode value))).length = 32 ∧
    (utf8Encode (keccak256hex (utf8Encode value))).length = 66 := by
  refine ⟨?_, ?_, utf8_keccak256hex_length _⟩
  · rw [generateSignature_eq, answerDigest_eq]
  · rw [arrayify_keccak256hex, keccak256_length]

/-- Modelled from the spec: the standard ABI dynamic-string encoding of the
single string argument of a call - a 32-byte offset word of value 32, the
32-byte byte length, then the UTF-8 bytes right-padded with zeros to a
32-byte slot. -/
def specDynamicStringEncoding (s : String) : List Nat :=
  natTo32 32 ++ (natTo32 (utf8Encode s).length ++ padRight32 (utf8Encode s))

set_option maxRecDepth 100000 in
/-- C6. The call data encoded for solveChallenge1 with argument faucet is
the 4-byte selector derived from the canonical signature
solveChallenge1(string) - concretely the bytes 10 73 02 c8 - followed by
the standard dynamic-string encoding of faucet. -/
theorem encodeChallenge1CallData :
    encodeFunctionData "solveChallenge1" [ABIValue.string "faucet"]
      = (keccak256 (utf8Encode "solveChallenge1(string)")).take 4
          ++ specDynamicStringEncoding "faucet" ∧
    (encodeFunctionData "solveChallenge1" [ABIValue.string "faucet"]).take 4
      = [0x10, 0x73, 0x02, 0xc8] := by
  constructor
  · show selectorBytes "solveChallenge1" [ABIValue.string "faucet"]
          ++ encodeArguments [ABIValue.string "faucet"]
        = (keccak256 (utf8Encode "solveChallenge1(string)")).take 4
          ++ specDynamicStringEncoding "faucet"
    congr 1
  · decide

/-- C7. Signing the same literal answer twice with the same identity under
the deterministic wallet primitive yields bit-identical extended
signatures; the compact form derived from that signature is a fixed
function of it, and for a well-formed signature its 64 bytes differ from
the 65-byte extended byte sequence. -/
theorem signingDeterministicAndCompactDiffers
    (sign : List Nat → Sig) (value : String)
    (h : wfSig (sign (answerDigest value))) :
    generateSignature sign value = generateSignature sign value ∧
    (arrayify (generateSignature sign value)).length = 65 ∧
    (compactOf (splitSignatureOf (arrayify (generateSignature sign value)))).length = 64 ∧
    compactOf (splitSignatureOf (arrayify (generateSignature sign value)))
      ≠ arrayify (generateSignature sign value) := by
  have hext : arrayify (generateSignature sign value)
      = (sign (answerDigest value)).r ++ (sign (answerDigest value)).s
          ++ [(sign (answerDigest value)).v] := by
    rw [generateSignature_eq]
    exact arrayify_joinSignature _ h
  have hsplit : splitSignatureOf (arrayify (generateSignature sign value))
      = sign (answerDigest value) := by
    rw [hext]
    exact splitSignatureOf_join _ h
  refine ⟨rfl, ?_, ?_, ?_⟩
  · rw [hext]; exact extended_length _ h
  · rw [hsplit]; exact compactOf_length _ h
  · rw [hsplit, hext]; exact compact_ne_extended _ h

theorem signingDeterministicAndCompactDiffers_witness :
    wfSig (constSigner (answerDigest "The Merge")) ∧
    (generateSignature constSigner "The Merge" = generateSignature constSigner "The Merge" ∧
     (arrayify (generateSignature constSigner "The Merge")).length = 65 ∧
     (compactOf (splitSignatureOf (arrayify (generateSignature constSigner "The Merge")))).length
        = 64 ∧
     compactOf (splitSignatureOf (arrayify (generateSignature constSigner "The Merge")))
        ≠ arrayify (generateSignature constSigner "The Merge")) :=
  have hwf : wfSig (constSigner (answerDigest "The Merge")) := by
    refine ⟨by decide, by decide, by decide, by decide, by decide⟩
  ⟨hwf, signingDeterministicAndCompactDiffers constSigner "The Merge" hwf⟩

/-- C8. Challenges 3a and 3b both call solveChallenge3 with the same
answer EIP-4844 and the same signer address; the signature argument of 3a
is the 65-byte extended encoding and the one of 3b is its 64-byte EIP-2098
compact form, a different byte sequence. -/
theorem challenge3CallsDifferOnlyInSignatureEncoding
    (sign : List Nat → Sig) (address : String)
    (h : wfSig (sign (answerDigest "EIP-4844"))) :
    ∃ ext cpt : List Nat,
      challenge3aCall sign address
        = { name := "solveChallenge3"
            args := [.string "EIP-4844", .address address, .bytes ext] } ∧
      challenge3bCall sign address
        = { name := "solveChallenge3"
            args := [.string "EIP-4844", .address address, .bytes cpt] } ∧
      cpt = compactOf (splitSignatureOf ext) ∧
      ext.length = 65 ∧ cpt.length = 64 ∧ ext ≠ cpt := by
  have hext : arrayify (generateSignature sign "EIP-4844")
      = (sign (answerDigest "EIP-4844")).r ++ (sign (answerDigest "EIP-4844")).s
          ++ [(sign (answerDigest "EIP-4844")).v] := by
    rw [generateSignature_eq]
    exact arrayify_joinSignature _ h
  have hsplit : splitSignatureOf (arrayify (generateSignature sign "EIP-4844"))
      = sign (answerDigest "EIP-4844") := by
    rw [hext]
    exact splitSignatureOf_join _ h
  refine ⟨arrayify (generateSignature sign "EIP-4844"),
          compactOf (splitSignatureOf (arrayify (generateSignature sign "EIP-4844"))),
          rfl, ?_, rfl, ?_, ?_, ?_⟩
  · have hcb : arrayify (hexOfBytes (compactOf
          (splitSignatureOf (arrayify (generateSignature sign "EIP-4844")))))
        = compactOf (splitSignatureOf (arrayify (generateSignature sign "EIP-4844"))) := by
      apply arrayify_hexOfBytes
      rw [hsplit]
      exact compactOf_lt _ h
    show ({ name := "solveChallenge3"
            args := [ABIValue.string "EIP-4844", ABIValue.address address,
                     ABIValue.bytes (arrayify (hexOfBytes (compactOf
                       (splitSignatureOf (arrayify (generateSignature sign "EIP-4844"))))))] }
          : FnCall)
        = { name := "solveChallenge3"
            args := [ABIValue.string "EIP-4844", ABIValue.address address,
                     ABIValue.bytes (compactOf
                       (splitSignatureOf (arrayify (generateSignature sign "EIP-4844"))))] }
    rw [hcb]
  · rw [hext]; exact extended_length _ h
  · rw [hsplit]; exact compactOf_length _ h
  · rw [hsplit, hext]
    exact (compact_ne_extended _ h).symm

theorem challenge3CallsDifferOnlyInSignatureEncoding_witness :
    wfSig (constSigner (answerDigest "EIP-4844")) ∧
    (∃ ext cpt : List Nat,
      challenge3aCall constSigner addr0
        = { name := "solveChallenge3"
            args := [.string "EIP-4844", .address addr0, .bytes ext] } ∧
      challenge3bCall constSigner addr0
        = { name := "solveChallenge3"
            args := [.string "EIP-4844", .address addr0, .bytes cpt] } ∧
      cpt = compactOf (splitSignatureOf ext) ∧
      ext.length = 65 ∧ cpt.length = 64 ∧ ext ≠ cpt) :=
  have hwf : wfSig (constSigner (answerDigest "EIP-4844")) := by
    refine ⟨by decide, by decide, by decide, by decide, by decide⟩
  ⟨hwf, challenge3CallsDifferOnlyInSignatureEncoding constSigner addr0 hwf⟩

end Answers
